import Mathlib

/-!
Shallow embedding of the Psyker core (src/psyker): the AST model, the
registry dictionaries, the load pipeline, the execution engine, the
sandbox path-containment check, and the dialect-aware parser, together
with theorems settling the specification's claims against these
definitions. Effectful parts (file reads, subprocess launches) are
abstracted as explicit inputs or oracle parameters; everything else is
translated from the source.
-/

namespace Psyker

/-- Error kinds of `psyker/errors.py` (source spans and messages are
elided; only the exception class matters for the claims). The extra
`osError` stands for the non-Psyker exceptions `pathlib` raises while
resolving a pathological symlink chain, modelled below as resolution
fuel running out. -/
inductive PErr where
  | syntaxError
  | dialectError
  | referenceError
  | accessError
  | permissionError
  | sandboxError
  | execError
  | osError
deriving DecidableEq, Repr

/-- Model of `model.AccessBlock`: allow-lists for the two axes. -/
structure AccessBlock where
  agents : List String
  workers : List String
deriving DecidableEq, Repr

/-- Model of `model.TaskStmt`; `op` ranges over fs.open, fs.create,
exec.ps, exec.cmd. -/
structure TaskStmt where
  op : String
  arg : String
  line : Nat
  column : Nat
deriving DecidableEq, Repr

/-- Model of `model.TaskDef`. -/
structure TaskDef where
  name : String
  access : Option AccessBlock
  statements : List TaskStmt
  sourcePath : Option String
deriving DecidableEq, Repr

/-- Model of `model.WorkerAllow`. -/
structure WorkerAllow where
  capability : String
  arg : Option String
  line : Nat
  column : Nat
deriving DecidableEq, Repr

/-- Model of `model.WorkerDef`. -/
structure WorkerDef where
  name : String
  sandbox : Option String
  cwd : Option String
  allows : List WorkerAllow
  sourcePath : Option String
deriving DecidableEq, Repr

/-- Model of `model.AgentUse`; `count` comes from an unsigned integer
literal, hence `Nat`. -/
structure AgentUse where
  workerName : String
  count : Nat
  line : Nat
  column : Nat
deriving DecidableEq, Repr

/-- Model of `model.AgentDef`. -/
structure AgentDef where
  name : String
  uses : List AgentUse
  sourcePath : Option String
deriving DecidableEq, Repr

/-- Model of the union `TaskDocument | WorkerDocument | AgentDocument`. -/
inductive Document where
  | taskDoc (tasks : List TaskDef)
  | workerDoc (worker : WorkerDef)
  | agentDoc (agent : AgentDef)
deriving DecidableEq, Repr

/-- Model of Python `dict.get` on a string-keyed mapping kept as an
insertion-ordered association list. -/
def dictGet (k : String) : List (String × α) → Option α
  | [] => none
  | (k', v) :: rest => if k' = k then some v else dictGet k rest

/-- Model of Python `d[k] = v`: an existing key keeps its position and
gets the new value; a fresh key is appended at the end. -/
def dictInsert (k : String) (v : α) : List (String × α) → List (String × α)
  | [] => [(k, v)]
  | (k', v') :: rest => if k' = k then (k, v) :: rest else (k', v') :: dictInsert k v rest

/-- Model of `validator.ValidationContext`. -/
structure ValidationContext where
  workers : List (String × WorkerDef)
  agents : List (String × AgentDef)
  tasks : List (String × TaskDef)
deriving DecidableEq, Repr

/-- Loop body of `validator.validate_agent`: the first failing `use`
wins; `use.count <= 0` over unsigned literals is `count = 0`. -/
def validate_agent_uses (workers : List (String × WorkerDef)) : List AgentUse → Except PErr Unit
  | [] => .ok ()
  | u :: rest =>
    if (dictGet u.workerName workers).isNone then .error .referenceError
    else if u.count = 0 then .error .referenceError
    else validate_agent_uses workers rest

/-- Model of `validator.validate_agent` (only `context.workers` is
consulted by the loop). -/
def validate_agent (agent : AgentDef) (context : ValidationContext) : Except PErr Unit :=
  validate_agent_uses context.workers agent.uses

/-- Model of `validator.validate_document`: worker and task documents
validate trivially, agent documents run the reference checks. -/
def validate_document (document : Document) (context : ValidationContext) : Except PErr Unit :=
  match document with
  | .workerDoc _ => .ok ()
  | .taskDoc _ => .ok ()
  | .agentDoc agent => validate_agent agent context

/-- Model of `runtime.ExecutionResult`. -/
structure ExecutionResult where
  statusCode : Nat
  stdout : String
  stderr : String
  worker : String
  agent : String
  task : String
deriving DecidableEq, Repr

/-- Registries and round-robin counters of `runtime.RuntimeState` (the
sandbox handle is carried separately by the sandbox model below). -/
structure RuntimeState where
  workers : List (String × WorkerDef)
  agents : List (String × AgentDef)
  tasks : List (String × TaskDef)
  rrIndex : List (String × Nat)
deriving DecidableEq, Repr

/-- Model of `RuntimeState.load_file`. Parsing reads the filesystem, so
the parse outcome is an explicit input; the body mirrors the
copy-validate-swap of the source: the live registries are replaced only
after validation succeeded, any earlier failure returns them untouched. -/
def load_file (st : RuntimeState) (parsed : Except PErr Document) :
    RuntimeState × Except PErr Document :=
  match parsed with
  | .error e => (st, .error e)
  | .ok document =>
    match validate_document document ⟨st.workers, st.agents, st.tasks⟩ with
    | .error e => (st, .error e)
    | .ok () =>
      match document with
      | .workerDoc w => ({ st with workers := dictInsert w.name w st.workers }, .ok document)
      | .agentDoc a => ({ st with agents := dictInsert a.name a st.agents }, .ok document)
      | .taskDoc ts =>
        ({ st with tasks := ts.foldl (fun m t => dictInsert t.name t m) st.tasks }, .ok document)

/-- Pool flattening loop of `RuntimeState._select_worker`: each used
worker's name repeated `count` times, in declaration order. -/
def flattenPool (agent : AgentDef) : List String :=
  agent.uses.foldl (fun pool u => pool ++ List.replicate u.count u.workerName) []

/-- Model of `RuntimeState._select_worker`: deterministic stateful
round-robin. The counter is written back before the worker lookup, as in
the source. -/
def select_worker (st : RuntimeState) (agentName : String) (agent : AgentDef) :
    RuntimeState × Except PErr WorkerDef :=
  let pool := flattenPool agent
  if pool.isEmpty then (st, .error .referenceError)
  else
    let index := (dictGet agentName st.rrIndex).getD 0
    let selectedName := pool.getD (index % pool.length) ""
    let st' := { st with rrIndex := dictInsert agentName ((index + 1) % pool.length) st.rrIndex }
    match dictGet selectedName st.workers with
    | none => (st', .error .referenceError)
    | some worker => (st', .ok worker)

/-- Model of `RuntimeState._enforce_access`: deny-by-default on a
missing block, then the two allow-list axes in order (Python truthiness
of a list is non-emptiness). -/
def enforce_access (task : TaskDef) (agentName workerName : String) : Except PErr Unit :=
  match task.access with
  | none => .error .accessError
  | some access =>
    if !access.agents.isEmpty && !(access.agents.contains agentName) then .error .accessError
    else if !access.workers.isEmpty && !(access.workers.contains workerName) then
      .error .accessError
    else .ok ()

/-- Model of `RuntimeState._enforce_capability`: membership of the op in
the worker's granted capability set. -/
def enforce_capability (worker : WorkerDef) (op : String) : Except PErr Unit :=
  if (worker.allows.map (fun a => a.capability)).contains op then .ok ()
  else .error .permissionError

/-- Statement loop of `RuntimeState.run_task`: per-statement capability
check, then dispatch through the `runStmt` oracle standing for the
effectful `_run_statement`; returns the accumulated stdout/stderr (or
the first error) together with the list of statements dispatched. -/
def runStmts (runStmt : TaskStmt → Except PErr (String × String)) (worker : WorkerDef) :
    List TaskStmt → Except PErr (String × String) × List TaskStmt
  | [] => (.ok ("", ""), [])
  | stmt :: rest =>
    match enforce_capability worker stmt.op with
    | .error e => (.error e, [])
    | .ok () =>
      match runStmt stmt with
      | .error e => (.error e, [stmt])
      | .ok (out, err) =>
        match runStmts runStmt worker rest with
        | (.error e, ds) => (.error e, stmt :: ds)
        | (.ok (outs, errs), ds) => (.ok (out ++ outs, err ++ errs), stmt :: ds)

/-- Decidable equality for `Except`, needed to evaluate concrete run
outcomes inside proofs. -/
instance [DecidableEq ε] [DecidableEq α] : DecidableEq (Except ε α) := fun x y =>
  match x, y with
  | .ok a, .ok b => if h : a = b then .isTrue (by rw [h]) else .isFalse (by simp [h])
  | .error a, .error b => if h : a = b then .isTrue (by rw [h]) else .isFalse (by simp [h])
  | .ok _, .error _ => .isFalse (by simp)
  | .error _, .ok _ => .isFalse (by simp)

/-- Outcome of one `run_task` call: post-state, result, and the
statements that were dispatched to `_run_statement`, in order. -/
structure RunOutcome where
  state : RuntimeState
  result : Except PErr ExecutionResult
  dispatched : List TaskStmt
deriving DecidableEq, Repr

/-- Model of `RuntimeState.run_task`. `_run_statement` performs
filesystem and subprocess I/O, so it is abstracted as the `runStmt`
oracle; resolution, selection, access and capability checks follow the
source order. -/
def run_task (runStmt : TaskStmt → Except PErr (String × String)) (st : RuntimeState)
    (agentName taskName : String) : RunOutcome :=
  match dictGet agentName st.agents with
  | none => ⟨st, .error .referenceError, []⟩
  | some agent =>
    match dictGet taskName st.tasks with
    | none => ⟨st, .error .referenceError, []⟩
    | some task =>
      match select_worker st agentName agent with
      | (st', .error e) => ⟨st', .error e, []⟩
      | (st', .ok worker) =>
        match enforce_access task agentName worker.name with
        | .error e => ⟨st', .error e, []⟩
        | .ok () =>
          match runStmts runStmt worker task.statements with
          | (.error e, ds) => ⟨st', .error e, ds⟩
          | (.ok (out, err), ds) =>
            ⟨st', .ok ⟨0, out, err, worker.name, agentName, taskName⟩, ds⟩

/-- Components of an absolute filesystem path after the root separator:
the list `["home", "psyker_sandbox"]` stands for the absolute path
/home/psyker_sandbox. All resolved paths in the model are absolute. -/
abbrev PathComps := List String

/-- A path value as written in a statement: `Path(value)`, either
absolute or relative, split into components. -/
structure PathValue where
  absolute : Bool
  comps : List String
deriving DecidableEq, Repr

/-- Filesystem facts `pathlib` consults while resolving: which absolute
paths are symlinks (with their absolute target components) and which
absolute paths exist. -/
structure FileSystem where
  links : List (PathComps × PathComps)
  existing : List PathComps
deriving DecidableEq, Repr

/-- Symlink lookup for one absolute path. -/
def lookupLink (fs : FileSystem) (p : PathComps) : Option PathComps :=
  (fs.links.find? (fun e => e.1 == p)).map (fun e => e.2)

/-- Existence check (`Path.exists`). -/
def pathExists (fs : FileSystem) (p : PathComps) : Bool :=
  fs.existing.contains p

/-- Model of `Path.resolve(strict=False)`: walk the components left to
right, dropping `.` and empty segments, resolving `..` against the
prefix built so far, and restarting on a symlink with its target
prepended to the remainder. `fuel` bounds the number of steps;
exhaustion models the OS error `pathlib` raises on a symlink loop. -/
def resolveLoop (fs : FileSystem) : Nat → PathComps → List String → Option PathComps
  | 0, _, _ => none
  | _ + 1, acc, [] => some acc
  | fuel + 1, acc, c :: rest =>
    if c = "." || c = "" then resolveLoop fs fuel acc rest
    else if c = ".." then resolveLoop fs fuel acc.dropLast rest
    else
      match lookupLink fs (acc ++ [c]) with
      | some target => resolveLoop fs fuel [] (target ++ rest)
      | none => resolveLoop fs fuel (acc ++ [c]) rest

/-- Model of `sandbox.Sandbox`: the configured root. -/
structure Sandbox where
  root : PathComps
deriving DecidableEq, Repr

/-- The `workspace` property: `root / "workspace"`. -/
def Sandbox.workspace (sb : Sandbox) : PathComps :=
  sb.root ++ ["workspace"]

/-- Model of `Sandbox._assert_inside_root`: the resolved path must sit
under `root.resolve()` (else SandboxError), and, when the path exists,
its re-resolved real path must as well. Returns the raised error, or
`none` when the check passes. -/
def assert_inside_root (fs : FileSystem) (fuel : Nat) (sb : Sandbox) (resolved : PathComps) :
    Option PErr :=
  match resolveLoop fs fuel [] sb.root with
  | none => some .osError
  | some rootResolved =>
    if rootResolved.isPrefixOf resolved then
      if pathExists fs resolved then
        match resolveLoop fs fuel [] resolved with
        | none => some .osError
        | some real =>
          if rootResolved.isPrefixOf real then none else some .sandboxError
      else none
    else some .sandboxError

/-- Model of `Sandbox.resolve_under_root` (`ensure_layout`, which only
creates directories, is elided): join a relative value onto the root,
resolve, and containment-check the result. -/
def resolve_under_root (fs : FileSystem) (fuel : Nat) (sb : Sandbox) (value : PathValue) :
    Except PErr PathComps :=
  let base := if value.absolute then value.comps else sb.root ++ value.comps
  match resolveLoop fs fuel [] base with
  | none => .error .osError
  | some resolved =>
    match assert_inside_root fs fuel sb resolved with
    | some e => .error e
    | none => .ok resolved

/-- Model of `Sandbox.resolve_in_workspace`: as `resolve_under_root` but
joining relative values onto the workspace subdirectory. -/
def resolve_in_workspace (fs : FileSystem) (fuel : Nat) (sb : Sandbox) (value : PathValue) :
    Except PErr PathComps :=
  let base := if value.absolute then value.comps else sb.workspace ++ value.comps
  match resolveLoop fs fuel [] base with
  | none => .error .osError
  | some resolved =>
    match assert_inside_root fs fuel sb resolved with
    | some e => .error e
    | none => .ok resolved

/-- Model of `token.Token`: kind, value, and position. -/
structure Token where
  kind : String
  value : String
  line : Nat
  column : Nat
deriving DecidableEq, Repr

/-- Parser cursor of `parser.Parser`: the token list, the current index,
and the source path stored on produced definitions. -/
structure PState where
  tokens : List Token
  index : Nat
  path : Option String
deriving DecidableEq, Repr

/-- Direct access `self.tokens[self.index]`; the lexer terminates every
stream with an EOF token, so the default is unreachable on lexer
output. -/
def curTok (s : PState) : Token :=
  s.tokens.getD s.index ⟨"EOF", "", 0, 0⟩

/-- Index bump shared by the match/expect helpers. -/
def pAdvanceState (s : PState) : PState :=
  { s with index := s.index + 1 }

/-- Model of `Parser._advance`: return the current token and move past
it, without skipping comments. -/
def pAdvance (s : PState) : Token × PState :=
  (curTok s, pAdvanceState s)

/-- Model of `Parser._skip_comments`; the loop is bounded by the token
count, expressed with explicit fuel so concrete runs evaluate. -/
def skipComments : Nat → PState → PState
  | 0, s => s
  | fuel + 1, s =>
    if (curTok s).kind = "COMMENT" then skipComments fuel (pAdvanceState s) else s

/-- Model of `Parser._peek`: skip comments (mutating the cursor), then
look at the current token. -/
def pPeek (fuel : Nat) (s : PState) : Token × PState :=
  let s' := skipComments fuel s
  (curTok s', s')

/-- Model of `Parser._at_end`: the peeked token is EOF. -/
def pAtEnd (fuel : Nat) (s : PState) : Bool × PState :=
  let (t, s') := pPeek fuel s
  (t.kind = "EOF", s')

/-- Model of `Parser._match` on a token kind. -/
def pMatch (fuel : Nat) (kind : String) (s : PState) : Bool × PState :=
  let (t, s') := pPeek fuel s
  if t.kind = kind then (true, pAdvanceState s') else (false, s')

/-- Model of `Parser._match_symbol` on a token value. -/
def pMatchSymbol (fuel : Nat) (value : String) (s : PState) : Bool × PState :=
  let (t, s') := pPeek fuel s
  if t.value = value then (true, pAdvanceState s') else (false, s')

/-- Model of `Parser._match_keyword` on a token value (same body as the
symbol form in the source). -/
def pMatchKeyword (fuel : Nat) (value : String) (s : PState) : Bool × PState :=
  let (t, s') := pPeek fuel s
  if t.value = value then (true, pAdvanceState s') else (false, s')

/-- Model of `Parser._expect_kind`. -/
def pExpectKind (fuel : Nat) (kind : String) (s : PState) : Except PErr (Token × PState) :=
  let (t, s') := pPeek fuel s
  if t.kind = kind then .ok (t, pAdvanceState s') else .error .syntaxError

/-- Model of `Parser._expect_symbol`. -/
def pExpectSymbol (fuel : Nat) (value : String) (s : PState) : Except PErr (Token × PState) :=
  let (t, s') := pPeek fuel s
  if t.value = value then .ok (t, pAdvanceState s') else .error .syntaxError

/-- Model of `Parser._expect_keyword`. -/
def pExpectKeyword (fuel : Nat) (value : String) (s : PState) : Except PErr (Token × PState) :=
  let (t, s') := pPeek fuel s
  if t.value = value then .ok (t, pAdvanceState s') else .error .syntaxError

/-- Model of `Parser._expect_ident`. -/
def pExpectIdent (fuel : Nat) (s : PState) : Except PErr (Token × PState) :=
  let (t, s') := pPeek fuel s
  if t.kind = "IDENT" then .ok (t, pAdvanceState s') else .error .syntaxError

/-- Model of `Parser._expect_keyword_any`, mirroring the source's
condition `token.kind not in kinds or token.value not in values and not
(allow_ident and token.kind == "IDENT")` with Python precedence. -/
def pExpectKeywordAny (fuel : Nat) (values : List String) (allowIdent : Bool) (s : PState) :
    Except PErr (Token × PState) :=
  let (t, s') := pPeek fuel s
  let kindOk := t.kind == "KEYWORD" || (allowIdent && t.kind == "IDENT")
  if !kindOk || (!(values.contains t.value) && !(allowIdent && t.kind == "IDENT")) then
    .error .syntaxError
  else .ok (t, pAdvanceState s')

/-- Model of `Parser._expect_path_or_string`. -/
def pExpectPathOrString (fuel : Nat) (s : PState) : Except PErr (Token × PState) :=
  let (t, s') := pPeek fuel s
  if t.kind = "PATH" || t.kind = "STRING" then .ok (t, pAdvanceState s') else .error .syntaxError

/-- Model of `Parser._reject_cross_dialect`: DialectError as soon as the
peeked token's value is in the forbidden vocabulary. -/
def pReject (fuel : Nat) (forbidden : List String) (s : PState) : Except PErr PState :=
  let (t, s') := pPeek fuel s
  if forbidden.contains t.value then .error .dialectError else .ok s'

/-- The `_TASK_OPS` vocabulary of `parser.py`. -/
def taskOps : List String :=
  ["fs.open", "fs.create", "exec.ps", "exec.cmd"]

/-- The `_WORKER_CAPS` vocabulary (same members as `_TASK_OPS`). -/
def workerCaps : List String :=
  ["fs.open", "fs.create", "exec.ps", "exec.cmd"]

/-- The `_TASK_ONLY` vocabulary. -/
def taskOnly : List String :=
  ["task", "@access", "agents", "workers"] ++ taskOps

/-- The `_WORKER_ONLY` vocabulary. -/
def workerOnly : List String :=
  ["worker", "allow", "sandbox", "cwd"] ++ workerCaps

/-- The `_AGENT_ONLY` vocabulary. -/
def agentOnly : List String :=
  ["agent", "use", "count"]

/-- Model of `Parser._parse_ident_list`, items after the first; fuel
bounds the comma loop. -/
def identListLoop : Nat → List String → PState → Except PErr (List String × PState)
  | 0, _, _ => .error .syntaxError
  | fuel + 1, items, s =>
    let (m, s) := pMatchSymbol fuel "," s
    if m then do
      let (item, s) ← pExpectIdent fuel s
      identListLoop fuel (items ++ [item.value]) s
    else .ok (items, s)

/-- Model of `Parser._parse_ident_list`. -/
def parse_ident_list (fuel : Nat) (s : PState) : Except PErr (List String × PState) := do
  let (_, s) ← pExpectSymbol fuel "[" s
  let (t0, s) := pPeek fuel s
  if t0.value = "]" then do
    let (_, s) ← pExpectSymbol fuel "]" s
    .ok ([], s)
  else do
    let (first, s) ← pExpectIdent fuel s
    let (items, s) ← identListLoop fuel [first.value] s
    let (_, s) ← pExpectSymbol fuel "]" s
    .ok (items, s)

/-- Model of `Parser._parse_access_block`; the by-name field assignment
of the source is expressed as a pair update, and a duplicate field name
is SyntaxError. -/
def parse_access_block (fuel : Nat) (s : PState) : Except PErr (AccessBlock × PState) := do
  let (_, s) ← pExpectSymbol fuel "\x7b" s
  let (t0, s) := pPeek fuel s
  if t0.value = "\x7d" then do
    let (_, s) ← pExpectSymbol fuel "\x7d" s
    .ok (⟨[], []⟩, s)
  else do
    let (firstField, s) ← pExpectKeywordAny fuel ["agents", "workers"] false s
    let (_, s) ← pExpectSymbol fuel ":" s
    let (firstValues, s) ← parse_ident_list fuel s
    let first : List String × List String :=
      if firstField.value = "agents" then (firstValues, []) else ([], firstValues)
    let (m, s) := pMatchSymbol fuel "," s
    if m then do
      let (secondField, s) ← pExpectKeywordAny fuel ["agents", "workers"] false s
      if secondField.value = firstField.value then .error .syntaxError
      else do
        let (_, s) ← pExpectSymbol fuel ":" s
        let (secondValues, s) ← parse_ident_list fuel s
        let both : List String × List String :=
          if secondField.value = "agents" then (secondValues, first.2) else (first.1, secondValues)
        let (_, s) ← pExpectSymbol fuel "\x7d" s
        .ok (⟨both.1, both.2⟩, s)
    else do
      let (_, s) ← pExpectSymbol fuel "\x7d" s
      .ok (⟨first.1, first.2⟩, s)

/-- Model of `Parser._parse_task_stmt`. -/
def parse_task_stmt (fuel : Nat) (s : PState) : Except PErr (TaskStmt × PState) := do
  let (op, s) ← pExpectKeywordAny fuel taskOps false s
  let (arg, s) ← pExpectPathOrString fuel s
  let (_, s) ← pExpectSymbol fuel ";" s
  .ok (⟨op.value, arg.value, op.line, op.column⟩, s)

/-- Statement loop of `Parser._parse_task_def`, with its in-body
cross-dialect rejection. -/
def taskBodyLoop : Nat → PState → Except PErr (List TaskStmt × PState)
  | 0, _ => .error .syntaxError
  | fuel + 1, s =>
    let (m, s) := pMatchSymbol fuel "\x7d" s
    if m then .ok ([], s)
    else
      let s := skipComments fuel s
      let (t0, s) := pPeek fuel s
      if t0.value = "\x7d" then
        let (_, s) := pAdvance s
        .ok ([], s)
      else do
        let s ← pReject fuel ["worker", "agent", "use", "allow", "sandbox", "cwd"] s
        let (stmt, s) ← parse_task_stmt fuel s
        let s := skipComments fuel s
        let (rest, s) ← taskBodyLoop fuel s
        .ok (stmt :: rest, s)

/-- Model of `Parser._parse_task_def`. -/
def parse_task_def (fuel : Nat) (s : PState) : Except PErr (TaskDef × PState) := do
  let (hasAccess, s) := pMatchKeyword fuel "@access" s
  let (access, s) ←
    if hasAccess then do
      let (a, s) ← parse_access_block fuel s
      pure ((some a : Option AccessBlock), s)
    else pure ((none : Option AccessBlock), s)
  let (_, s) ← pExpectKeyword fuel "task" s
  let (name, s) ← pExpectIdent fuel s
  let (_, s) ← pExpectSymbol fuel "\x7b" s
  let (stmts, s) ← taskBodyLoop fuel s
  .ok (⟨name.value, access, stmts, s.path⟩, s)

/-- Body loop of `Parser._parse_worker_def`: sandbox/cwd/allow
statements, with the in-body cross-dialect rejection over
`_TASK_ONLY | _AGENT_ONLY`. -/
def workerBodyLoop :
    Nat → Option String × Option String × List WorkerAllow → PState →
      Except PErr ((Option String × Option String × List WorkerAllow) × PState)
  | 0, _, _ => .error .syntaxError
  | fuel + 1, (sb, cw, allows), s =>
    let (m, s) := pMatchSymbol fuel "\x7d" s
    if m then .ok ((sb, cw, allows), s)
    else
      let s := skipComments fuel s
      let (t0, s) := pPeek fuel s
      if t0.value = "\x7d" then
        let (_, s) := pAdvance s
        .ok ((sb, cw, allows), s)
      else
        let (tok, s) := pPeek fuel s
        if (taskOnly ++ agentOnly).contains tok.value then .error .dialectError
        else
          let (mSandbox, s) := pMatchKeyword fuel "sandbox" s
          if mSandbox then do
            let (p, s) ← pExpectPathOrString fuel s
            let (_, s) ← pExpectSymbol fuel ";" s
            let s := skipComments fuel s
            workerBodyLoop fuel (some p.value, cw, allows) s
          else
            let (mCwd, s) := pMatchKeyword fuel "cwd" s
            if mCwd then do
              let (p, s) ← pExpectPathOrString fuel s
              let (_, s) ← pExpectSymbol fuel ";" s
              let s := skipComments fuel s
              workerBodyLoop fuel (sb, some p.value, allows) s
            else
              let (mAllow, s) := pMatchKeyword fuel "allow" s
              if mAllow then do
                let (capTok, s) ← pExpectKeywordAny fuel workerCaps true s
                if !(workerCaps.contains capTok.value) then .error .syntaxError
                else do
                  let (t1, s) := pPeek fuel s
                  let (arg, s) :=
                    if ["PATH", "STRING", "IDENT"].contains t1.kind then
                      ((some t1.value : Option String), pAdvanceState s)
                    else (none, s)
                  let (_, s) ← pExpectSymbol fuel ";" s
                  let s := skipComments fuel s
                  workerBodyLoop fuel
                    (sb, cw, allows ++ [⟨capTok.value, arg, capTok.line, capTok.column⟩]) s
              else .error .syntaxError

/-- Model of `Parser._parse_worker_def`. -/
def parse_worker_def (fuel : Nat) (s : PState) : Except PErr (WorkerDef × PState) := do
  let (_, s) ← pExpectKeyword fuel "worker" s
  let (name, s) ← pExpectIdent fuel s
  let (_, s) ← pExpectSymbol fuel "\x7b" s
  let ((sb, cw, allows), s) ← workerBodyLoop fuel (none, none, []) s
  .ok (⟨name.value, sb, cw, allows, s.path⟩, s)

/-- Body loop of `Parser._parse_agent_def`: `use worker <name> count =
<int>;` clauses, with the in-body cross-dialect rejection over
`_TASK_ONLY | _WORKER_ONLY`. The INT token holds digits, so `int(...)`
is `toNat?.getD 0`. -/
def agentBodyLoop : Nat → PState → Except PErr (List AgentUse × PState)
  | 0, _ => .error .syntaxError
  | fuel + 1, s =>
    let (m, s) := pMatchSymbol fuel "\x7d" s
    if m then .ok ([], s)
    else
      let s := skipComments fuel s
      let (t0, s) := pPeek fuel s
      if t0.value = "\x7d" then
        let (_, s) := pAdvance s
        .ok ([], s)
      else
        let (tok, s) := pPeek fuel s
        if (taskOnly ++ workerOnly).contains tok.value then .error .dialectError
        else do
          let (_, s) ← pExpectKeyword fuel "use" s
          let (_, s) ← pExpectKeyword fuel "worker" s
          let (wname, s) ← pExpectIdent fuel s
          let (_, s) ← pExpectKeyword fuel "count" s
          let (_, s) ← pExpectSymbol fuel "=" s
          let (countTok, s) ← pExpectKind fuel "INT" s
          let (_, s) ← pExpectSymbol fuel ";" s
          let s := skipComments fuel s
          let (rest, s) ← agentBodyLoop fuel s
          .ok (⟨wname.value, countTok.value.toNat?.getD 0, wname.line, wname.column⟩ :: rest, s)

/-- Model of `Parser._parse_agent_def`. -/
def parse_agent_def (fuel : Nat) (s : PState) : Except PErr (AgentDef × PState) := do
  let (_, s) ← pExpectKeyword fuel "agent" s
  let (name, s) ← pExpectIdent fuel s
  let (_, s) ← pExpectSymbol fuel "\x7b" s
  let (uses, s) ← agentBodyLoop fuel s
  .ok (⟨name.value, uses, s.path⟩, s)

/-- Top-level loop of `Parser.parse_task_file`, with its top-of-file
cross-dialect rejection of worker/agent constructs. -/
def parse_task_file_loop : Nat → PState → Except PErr (List TaskDef × PState)
  | 0, _ => .error .syntaxError
  | fuel + 1, s =>
    let (isEnd, s) := pAtEnd fuel s
    if isEnd then .ok ([], s)
    else
      let (m, s) := pMatch fuel "COMMENT" s
      if m then parse_task_file_loop fuel s
      else do
        let s ← pReject fuel ["worker", "agent"] s
        let (task, s) ← parse_task_def fuel s
        let (rest, s) ← parse_task_file_loop fuel s
        .ok (task :: rest, s)

/-- Model of `Parser.parse_task_file`. -/
def parse_task_file (fuel : Nat) (s : PState) : Except PErr Document := do
  let (tasks, _) ← parse_task_file_loop fuel s
  .ok (.taskDoc tasks)

/-- Model of `Parser.parse_worker_file`, with its top-of-file
cross-dialect rejection of task/agent constructs. -/
def parse_worker_file (fuel : Nat) (s : PState) : Except PErr Document := do
  let s := skipComments fuel s
  let s ← pReject fuel ["task", "agent", "@access"] s
  let (worker, s) ← parse_worker_def fuel s
  let s := skipComments fuel s
  let (_, _) ← pExpectKind fuel "EOF" s
  .ok (.workerDoc worker)

/-- Model of `Parser.parse_agent_file`, with its top-of-file
cross-dialect rejection of task/worker constructs and the task ops. -/
def parse_agent_file (fuel : Nat) (s : PState) : Except PErr Document := do
  let s := skipComments fuel s
  let s ← pReject fuel (["task", "worker", "@access"] ++ taskOps) s
  let (agent, s) ← parse_agent_def fuel s
  let s := skipComments fuel s
  let (_, _) ← pExpectKind fuel "EOF" s
  .ok (.agentDoc agent)

/-- Model of `parser.parse_path`: dispatch on the (lowercased) file
suffix; an unsupported extension is DialectError. -/
def parse_path (fuel : Nat) (suffix : String) (s : PState) : Except PErr Document :=
  if suffix = ".psy" then parse_task_file fuel s
  else if suffix = ".psyw" then parse_worker_file fuel s
  else if suffix = ".psya" then parse_agent_file fuel s
  else .error .dialectError

/-- Null statement oracle: every dispatch succeeds with empty output. -/
def oracleNull : TaskStmt → Except PErr (String × String) := fun _ => .ok ("", "")

/-- Oracle for the spec's fs.open scenario: reading succeeds with the
file content "hello". -/
def oracleHello : TaskStmt → Except PErr (String × String) := fun _ => .ok ("hello", "")

/-- Fresh runtime: empty registries and counters. -/
def stEmpty : RuntimeState := ⟨[], [], [], []⟩

/-- Worker named A with no grants. -/
def wA : WorkerDef := ⟨"A", none, none, [], none⟩

/-- Worker named B with no grants. -/
def wB : WorkerDef := ⟨"B", none, none, [], none⟩

/-- Agent declared as `use worker A count=2; use worker B count=1;`. -/
def agAB : AgentDef := ⟨"ag", [⟨"A", 2, 1, 1⟩, ⟨"B", 1, 2, 1⟩], none⟩

/-- Task with an unrestricted access block and no statements. -/
def taskFree : TaskDef := ⟨"t", some ⟨[], []⟩, [], none⟩

/-- State for the round-robin scenario: workers A and B, agent `ag`,
task `t`. -/
def stRR : RuntimeState := ⟨[("A", wA), ("B", wB)], [("ag", agAB)], [("t", taskFree)], []⟩

/-- Worker w1 granted only fs.open. -/
def w1open : WorkerDef := ⟨"w1", none, none, [⟨"fs.open", none, 1, 3⟩], none⟩

/-- Agent alpha using w1 once. -/
def alphaAgent : AgentDef := ⟨"alpha", [⟨"w1", 1, 1, 1⟩], none⟩

/-- The spec's `hello` task: access restricted to alpha, one fs.open. -/
def helloTask : TaskDef :=
  ⟨"hello", some ⟨["alpha"], []⟩, [⟨"fs.open", "workspace/input.txt", 2, 3⟩], none⟩

/-- State of the spec's §8 scenario (worker w1, agent alpha, task hello). -/
def stScenario : RuntimeState :=
  ⟨[("w1", w1open)], [("alpha", alphaAgent)], [("hello", helloTask)], []⟩

/-- A single exec.ps statement. -/
def psStmt : TaskStmt := ⟨"exec.ps", "echo hi", 2, 3⟩

/-- Task running exec.ps, with an unrestricted access block. -/
def psTask : TaskDef := ⟨"pstask", some ⟨[], []⟩, [psStmt], none⟩

/-- State for the missing-capability scenario. -/
def stC7 : RuntimeState := ⟨[("w1", w1open)], [("alpha", alphaAgent)], [("pstask", psTask)], []⟩

/-- Loadable agent declared with zero `use` clauses (`agent a { }`). -/
def agEmpty : AgentDef := ⟨"a", [], none⟩

/-- Task with no access block. -/
def tNoAcc : TaskDef := ⟨"t", none, [], none⟩

/-- Registries after loading the empty-pool agent into a fresh runtime. -/
def stC2a : RuntimeState := (load_file stEmpty (.ok (.agentDoc agEmpty))).1

/-- Registries after additionally loading the access-free task. -/
def stC2b : RuntimeState := (load_file stC2a (.ok (.taskDoc [tNoAcc]))).1

/-- Agent using worker A three times. -/
def agA3 : AgentDef := ⟨"ag", [⟨"A", 3, 1, 1⟩], none⟩

/-- State whose task has no access block but whose agent has a pool. -/
def stAmend : RuntimeState := ⟨[("A", wA)], [("ag", agA3)], [("t", tNoAcc)], []⟩

/-- Agent beta using w1 once. -/
def betaAgent : AgentDef := ⟨"beta", [⟨"w1", 1, 1, 1⟩], none⟩

/-- Task whose access block names only agent alpha. -/
def tAgentsOnly : TaskDef := ⟨"t", some ⟨["alpha"], []⟩, [], none⟩

/-- State where beta runs a task allowing only alpha. -/
def stC6 : RuntimeState := ⟨[("w1", w1open)], [("beta", betaAgent)], [("t", tAgentsOnly)], []⟩

/-- Agent referencing a worker that is not loaded. -/
def agBad : AgentDef := ⟨"bad", [⟨"ghost", 1, 1, 1⟩], none⟩

/-- Concrete sandbox rooted at /home/psyker_sandbox. -/
def sbEx : Sandbox := ⟨["home", "psyker_sandbox"]⟩

/-- Filesystem with no symlinks and no existing paths. -/
def fsEmpty : FileSystem := ⟨[], []⟩

/-- Filesystem with a symlink workspace/evil inside the sandbox pointing
to the outside directory /etc. -/
def fsLink : FileSystem :=
  ⟨[(["home", "psyker_sandbox", "workspace", "evil"], ["etc"])],
   [["home", "psyker_sandbox", "workspace", "evil"]]⟩

/-- Last task in the list carrying the given name, mirroring last-wins
dictionary assignment; used to characterise the task-registry fold. -/
def lastNamed (k : String) : List TaskDef → Option TaskDef
  | [] => none
  | t :: ts =>
    match lastNamed k ts with
    | some u => some u
    | none => if t.name = k then some t else none

theorem dictGet_dictInsert (k kin : String) (v : α) (m : List (String × α)) :
    dictGet k (dictInsert kin v m) = if kin = k then some v else dictGet k m := by
  induction m with
  | nil => simp [dictGet, dictInsert]
  | cons hd tl ih =>
    obtain ⟨a, b⟩ := hd
    by_cases h1 : a = kin
    · subst h1
      by_cases h2 : a = k <;> simp [dictGet, dictInsert, h2]
    · by_cases h2 : a = k
      · subst h2
        have : ¬(kin = a) := fun hh => h1 hh.symm
        simp [dictGet, dictInsert, h1, this]
      · simp [dictGet, dictInsert, h1, h2, ih]

theorem dictInsert_idem (k : String) (v : α) (m : List (String × α)) :
    dictInsert k v (dictInsert k v m) = dictInsert k v m := by
  induction m with
  | nil => simp [dictInsert]
  | cons hd tl ih =>
    obtain ⟨a, b⟩ := hd
    by_cases h : a = k <;> simp [dictInsert, h, ih]

theorem dictGet_foldInsert (k : String) (ts : List TaskDef) :
    ∀ m : List (String × TaskDef),
      dictGet k (ts.foldl (fun m t => dictInsert t.name t m) m) =
        match lastNamed k ts with
        | some t => some t
        | none => dictGet k m := by
  induction ts with
  | nil => intro m; simp [lastNamed]
  | cons t ts ih =>
    intro m
    simp only [List.foldl_cons]
    rw [ih]
    cases h : lastNamed k ts with
    | some u => simp [lastNamed, h]
    | none =>
      by_cases hn : t.name = k <;> simp [lastNamed, h, hn, dictGet_dictInsert]

/-- C4: for every registry state, when the parse or the validation of a
file fails, `load_file` surfaces that error and returns the three live
registries (and all other runtime state) exactly unchanged: load is
all-or-nothing per file. -/
theorem c4_load_file_atomic :
    (∀ (st : RuntimeState) (e : PErr), load_file st (.error e) = (st, .error e)) ∧
    (∀ (st : RuntimeState) (doc : Document) (e : PErr),
      validate_document doc ⟨st.workers, st.agents, st.tasks⟩ = .error e →
      load_file st (.ok doc) = (st, .error e)) := by
  constructor
  · intro st e
    rfl
  · intro st doc e hv
    simp [load_file, hv]

/-- Witness for C4: loading an agent document that references the
unloaded worker `ghost` fails validation and leaves the fresh runtime
unchanged. -/
theorem c4_load_file_atomic_witness :
    validate_document (.agentDoc agBad) ⟨stEmpty.workers, stEmpty.agents, stEmpty.tasks⟩ =
        .error .referenceError ∧
    load_file stEmpty (.ok (.agentDoc agBad)) = (stEmpty, .error .referenceError) :=
  ⟨by decide, c4_load_file_atomic.2 stEmpty (.agentDoc agBad) .referenceError (by decide)⟩

/-- Counterexample to C2 as stated: the agent `a`, loadable from
`agent a { }`, has an empty worker pool, so `run_task` on an
access-free task raises ReferenceError at worker selection, not
AccessError — the registries used are built through `load_file`, so the
state is reachable. -/
theorem c2_deny_by_default_counterexample :
    (load_file stEmpty (.ok (.agentDoc agEmpty))).2 = .ok (.agentDoc agEmpty) ∧
    (load_file stC2a (.ok (.taskDoc [tNoAcc]))).2 = .ok (.taskDoc [tNoAcc]) ∧
    dictGet "a" stC2b.agents = some agEmpty ∧
    dictGet "t" stC2b.tasks = some tNoAcc ∧
    tNoAcc.access = none ∧
    (run_task oracleNull stC2b "a" "t").result = .error .referenceError ∧
    ¬((run_task oracleNull stC2b "a" "t").result = .error .accessError) := by
  decide

/-- C2 (amended): for every loaded agent and loaded task whose TaskDef
has no access block, provided worker selection succeeds (non-empty pool
with the selected worker loaded), `run_task` raises AccessError,
regardless of the selected worker's capability grants. -/
theorem c2_deny_by_default_amended (o : TaskStmt → Except PErr (String × String))
    (st : RuntimeState) (an tn : String) (agent : AgentDef) (task : TaskDef) (w : WorkerDef)
    (hagent : dictGet an st.agents = some agent)
    (htask : dictGet tn st.tasks = some task)
    (hsel : (select_worker st an agent).2 = .ok w)
    (hacc : task.access = none) :
    (run_task o st an tn).result = .error .accessError := by
  rcases hsw : select_worker st an agent with ⟨st', r⟩
  rw [hsw] at hsel
  simp only at hsel
  subst hsel
  simp [run_task, hagent, htask, hsw, enforce_access, hacc]

/-- Witness for the amended C2: a worker with no grants at all still
yields AccessError on the access-free task. -/
theorem c2_deny_by_default_amended_witness :
    (run_task oracleNull stAmend "ag" "t").result = .error .accessError :=
  c2_deny_by_default_amended oracleNull stAmend "ag" "t" agA3 tNoAcc wA
    (by decide) (by decide) (by decide) rfl

/-- C3: the embedded `run_task` (translated from
`runtime.RuntimeState.run_task`) contains no cooperative-cancellation
poll — on the spec's scenario it dispatches the statement and completes
with status 0, and `RuntimeState` defines no `set_cancel_check` at all,
although `cli.py` and `tests/test_step5_executor.py` call it and the
test expects ExecError "task cancelled by user". -/
theorem c3_run_task_has_no_cancellation_check :
    (run_task oracleHello stScenario "alpha" "hello").result =
      .ok ⟨0, "hello", "", "w1", "alpha", "hello"⟩ ∧
    (run_task oracleHello stScenario "alpha" "hello").dispatched =
      [⟨"fs.open", "workspace/input.txt", 2, 3⟩] := by
  decide

/-- C6: with an access block present, enforcement passes both axes
independently — a non-empty agents list without the caller raises
AccessError, a non-empty workers list without the selected worker raises
AccessError, and an empty list on an axis imposes no restriction on that
axis (empty = unrestricted, not deny-all). -/
theorem c6_access_axes (o : TaskStmt → Except PErr (String × String))
    (st : RuntimeState) (an tn : String) (agent : AgentDef) (task : TaskDef)
    (ab : AccessBlock) (w : WorkerDef)
    (hagent : dictGet an st.agents = some agent)
    (htask : dictGet tn st.tasks = some task)
    (hacc : task.access = some ab)
    (hsel : (select_worker st an agent).2 = .ok w) :
    ((ab.agents.isEmpty = false ∧ ab.agents.contains an = false) →
        (run_task o st an tn).result = .error .accessError) ∧
    ((ab.workers.isEmpty = false ∧ ab.workers.contains w.name = false) →
        (run_task o st an tn).result = .error .accessError) ∧
    ((ab.agents.isEmpty = true ∨ ab.agents.contains an = true) →
     (ab.workers.isEmpty = true ∨ ab.workers.contains w.name = true) →
        enforce_access task an w.name = .ok ()) := by
  rcases hsw : select_worker st an agent with ⟨st', r⟩
  rw [hsw] at hsel
  simp only at hsel
  subst hsel
  refine ⟨?_, ?_, ?_⟩
  · rintro ⟨h1, h2⟩
    simp at h1 h2
    simp [run_task, hagent, htask, hsw, enforce_access, hacc, h1, h2]
  · rintro ⟨h1, h2⟩
    simp at h1 h2
    by_cases hA : ¬ab.agents = [] ∧ an ∉ ab.agents
    · simp [run_task, hagent, htask, hsw, enforce_access, hacc, hA]
    · simp [run_task, hagent, htask, hsw, enforce_access, hacc, hA, h1, h2]
  · intro h1 h2
    simp at h1 h2
    rcases h1 with h1 | h1 <;> rcases h2 with h2 | h2 <;>
      simp [enforce_access, hacc, h1, h2]

/-- Witness for C6: agent beta is not in the task's non-empty agents
list, so its run is denied with AccessError. -/
theorem c6_access_axes_witness :
    (run_task oracleNull stC6 "beta" "t").result = .error .accessError :=
  (c6_access_axes oracleNull stC6 "beta" "t" betaAgent tAgentsOnly ⟨["alpha"], []⟩ w1open
    (by decide) (by decide) (by decide) (by decide)).1 ⟨by decide, by decide⟩

/-- Helper for C7: once the statement loop reaches a statement whose op
the worker lacks, the result is PermissionError and exactly the
preceding statements were dispatched. -/
theorem runStmts_stops_at_missing_capability
    (o : TaskStmt → Except PErr (String × String)) (w : WorkerDef) (s : TaskStmt)
    (rest : List TaskStmt) (hcap : enforce_capability w s.op = .error .permissionError) :
    ∀ pre : List TaskStmt,
      (∀ t ∈ pre, enforce_capability w t.op = .ok () ∧ ∃ pr, o t = .ok pr) →
      runStmts o w (pre ++ s :: rest) = (.error .permissionError, pre) := by
  intro pre
  induction pre with
  | nil =>
    intro _
    simp [runStmts, hcap]
  | cons t pre ih =>
    intro hpre
    obtain ⟨hc, pr, hpr⟩ := hpre t (List.mem_cons_self t pre)
    have hrest : ∀ t' ∈ pre, enforce_capability w t'.op = .ok () ∧ ∃ pr, o t' = .ok pr :=
      fun t' ht' => hpre t' (List.mem_cons_of_mem t ht')
    obtain ⟨o1, e1⟩ := pr
    simp [runStmts, hc, hpr, ih hrest]

/-- C7: statements run in order; as soon as one's op is outside the
selected worker's capability set, `run_task` raises PermissionError and
neither that statement nor any later one is dispatched to
`_run_statement`. -/
theorem c7_capability_stops_pipeline (o : TaskStmt → Except PErr (String × String))
    (st : RuntimeState) (an tn : String) (agent : AgentDef) (task : TaskDef) (w : WorkerDef)
    (pre : List TaskStmt) (s : TaskStmt) (rest : List TaskStmt)
    (hagent : dictGet an st.agents = some agent)
    (htask : dictGet tn st.tasks = some task)
    (hsel : (select_worker st an agent).2 = .ok w)
    (hacc : enforce_access task an w.name = .ok ())
    (hstmts : task.statements = pre ++ s :: rest)
    (hpre : ∀ t ∈ pre, enforce_capability w t.op = .ok () ∧ ∃ pr, o t = .ok pr)
    (hcap : enforce_capability w s.op = .error .permissionError) :
    (run_task o st an tn).result = .error .permissionError ∧
    (run_task o st an tn).dispatched = pre := by
  rcases hsw : select_worker st an agent with ⟨st', r⟩
  rw [hsw] at hsel
  simp only at hsel
  subst hsel
  have hrun := runStmts_stops_at_missing_capability o w s rest hcap pre hpre
  constructor <;> simp [run_task, hagent, htask, hsw, hacc, hstmts, hrun]

/-- Witness for C7: the spec's scenario — a task whose first statement
is exec.ps while the worker is granted only fs.open — fails with
PermissionError before any statement (hence any subprocess) is
dispatched. -/
theorem c7_capability_stops_pipeline_witness :
    (run_task oracleNull stC7 "alpha" "pstask").result = .error .permissionError ∧
    (run_task oracleNull stC7 "alpha" "pstask").dispatched = [] :=
  c7_capability_stops_pipeline oracleNull stC7 "alpha" "pstask" alphaAgent psTask w1open
    [] psStmt [] (by decide) (by decide) (by decide) (by decide) (by decide)
    (by simp) (by decide)

/-- C5: worker selection uses `pool[index % len(pool)]` over the
declaration-ordered flattened pool and increments the per-agent counter
mod the pool length on every selecting call; for the agent
`use worker A count=2; use worker B count=1;` six consecutive runs
select A, A, B, A, A, B. -/
theorem c5_round_robin :
    (∀ (st : RuntimeState) (an : String) (agent : AgentDef),
      (flattenPool agent).isEmpty = false →
      (select_worker st an agent).1.rrIndex =
        dictInsert an (((dictGet an st.rrIndex).getD 0 + 1) % (flattenPool agent).length)
          st.rrIndex ∧
      (select_worker st an agent).2 =
        (match dictGet ((flattenPool agent).getD
            ((dictGet an st.rrIndex).getD 0 % (flattenPool agent).length) "") st.workers with
         | none => .error .referenceError
         | some w => .ok w)) ∧
    (let r1 := run_task oracleNull stRR "ag" "t"
     let r2 := run_task oracleNull r1.state "ag" "t"
     let r3 := run_task oracleNull r2.state "ag" "t"
     let r4 := run_task oracleNull r3.state "ag" "t"
     let r5 := run_task oracleNull r4.state "ag" "t"
     let r6 := run_task oracleNull r5.state "ag" "t"
     r1.result = .ok ⟨0, "", "", "A", "ag", "t"⟩ ∧
     r2.result = .ok ⟨0, "", "", "A", "ag", "t"⟩ ∧
     r3.result = .ok ⟨0, "", "", "B", "ag", "t"⟩ ∧
     r4.result = .ok ⟨0, "", "", "A", "ag", "t"⟩ ∧
     r5.result = .ok ⟨0, "", "", "A", "ag", "t"⟩ ∧
     r6.result = .ok ⟨0, "", "", "B", "ag", "t"⟩) := by
  constructor
  · intro st an agent hp
    constructor
    · simp [select_worker, hp]
      split <;> rfl
    · simp [select_worker, hp]
      split <;> simp_all
  · decide

/-- Witness for C5 at the concrete A/A/B pool: the counter-update
equation of the general part holds on the scenario state. -/
theorem c5_round_robin_witness :
    (select_worker stRR "ag" agAB).1.rrIndex =
      dictInsert "ag" (((dictGet "ag" stRR.rrIndex).getD 0 + 1) % (flattenPool agAB).length)
        stRR.rrIndex :=
  (c5_round_robin.1 stRR "ag" agAB (by decide)).1

/-- Helper for C10: worker selection either leaves the state untouched
(empty pool) or advances exactly the agent's round-robin counter. -/
theorem select_worker_fst (st : RuntimeState) (an : String) (agent : AgentDef) :
    (select_worker st an agent).1 = st ∨
    (select_worker st an agent).1 =
      { st with rrIndex := dictInsert an (((dictGet an st.rrIndex).getD 0 + 1) %
          (flattenPool agent).length) st.rrIndex } := by
  by_cases hp : (flattenPool agent).isEmpty = true
  · left
    simp [select_worker, hp]
  · right
    simp only [Bool.not_eq_true] at hp
    simp [select_worker, hp]
    split <;> rfl

/-- Helper for C10: the post-state of `run_task` is either the input
state (resolution failed) or the state worker selection produced. -/
theorem run_task_state (o : TaskStmt → Except PErr (String × String))
    (st : RuntimeState) (an tn : String) :
    (run_task o st an tn).state = st ∨
    ∃ agent, dictGet an st.agents = some agent ∧
      (run_task o st an tn).state = (select_worker st an agent).1 := by
  cases h1 : dictGet an st.agents with
  | none => left; simp [run_task, h1]
  | some agent =>
    cases h2 : dictGet tn st.tasks with
    | none => left; simp [run_task, h1, h2]
    | some task =>
      right
      refine ⟨agent, rfl, ?_⟩
      rcases hsw : select_worker st an agent with ⟨st', r⟩
      cases r with
      | error e => simp [run_task, h1, h2, hsw]
      | ok w =>
        cases hea : enforce_access task an w.name with
        | error e => simp [run_task, h1, h2, hsw, hea]
        | ok u =>
          cases u
          rcases hrs : runStmts o w task.statements with ⟨rr, ds⟩
          cases rr with
          | error e => simp [run_task, h1, h2, hsw, hea, hrs]
          | ok pr =>
            obtain ⟨out, err⟩ := pr
            simp [run_task, h1, h2, hsw, hea, hrs]

/-- Helper for C10: when agent and task both resolve, the post-state of
`run_task` is exactly the state worker selection produced, whatever the
later checks and statements do. -/
theorem run_task_state_of_found (o : TaskStmt → Except PErr (String × String))
    (st : RuntimeState) (an tn : String) (agent : AgentDef) (task : TaskDef)
    (h1 : dictGet an st.agents = some agent)
    (h2 : dictGet tn st.tasks = some task) :
    (run_task o st an tn).state = (select_worker st an agent).1 := by
  rcases hsw : select_worker st an agent with ⟨st', r⟩
  cases r with
  | error e => simp [run_task, h1, h2, hsw]
  | ok w =>
    cases hea : enforce_access task an w.name with
    | error e => simp [run_task, h1, h2, hsw, hea]
    | ok u =>
      cases u
      rcases hrs : runStmts o w task.statements with ⟨rr, ds⟩
      cases rr with
      | error e => simp [run_task, h1, h2, hsw, hea, hrs]
      | ok pr =>
        obtain ⟨out, err⟩ := pr
        simp [run_task, h1, h2, hsw, hea, hrs]

/-- C10: `run_task` never modifies the workers/agents/tasks registries,
and every call that reaches worker selection (agent and task resolve,
pool non-empty) advances that agent's round-robin counter by exactly one
mod the pool length — also when the call then fails an access or
capability check. -/
theorem c10_run_task_frame :
    (∀ (o : TaskStmt → Except PErr (String × String)) (st : RuntimeState) (an tn : String),
      (run_task o st an tn).state.workers = st.workers ∧
      (run_task o st an tn).state.agents = st.agents ∧
      (run_task o st an tn).state.tasks = st.tasks) ∧
    (∀ (o : TaskStmt → Except PErr (String × String)) (st : RuntimeState) (an tn : String)
        (agent : AgentDef) (task : TaskDef),
      dictGet an st.agents = some agent →
      dictGet tn st.tasks = some task →
      (flattenPool agent).isEmpty = false →
      (run_task o st an tn).state.rrIndex =
        dictInsert an (((dictGet an st.rrIndex).getD 0 + 1) % (flattenPool agent).length)
          st.rrIndex) := by
  constructor
  · intro o st an tn
    rcases run_task_state o st an tn with h | ⟨agent, _, h⟩
    · simp [h]
    · rcases select_worker_fst st an agent with h2 | h2 <;> simp [h, h2]
  · intro o st an tn agent task h1 h2 hp
    have hfst : (select_worker st an agent).1 =
        { st with rrIndex := dictInsert an (((dictGet an st.rrIndex).getD 0 + 1) %
            (flattenPool agent).length) st.rrIndex } := by
      simp [select_worker, hp]
      split <;> rfl
    rw [run_task_state_of_found o st an tn agent task h1 h2, hfst]

/-- Witness for C10: a run that fails with AccessError (access-free
task) still advanced the agent's counter, and the registries are
untouched. -/
theorem c10_run_task_frame_witness :
    (run_task oracleNull stAmend "ag" "t").state.rrIndex =
      dictInsert "ag" (((dictGet "ag" stAmend.rrIndex).getD 0 + 1) % (flattenPool agA3).length)
        stAmend.rrIndex ∧
    (run_task oracleNull stAmend "ag" "t").state.workers = stAmend.workers ∧
    (run_task oracleNull stAmend "ag" "t").result = .error .accessError :=
  ⟨c10_run_task_frame.2 oracleNull stAmend "ag" "t" agA3 tNoAcc (by decide) (by decide)
      (by decide),
   (c10_run_task_frame.1 oracleNull stAmend "ag" "t").1, by decide⟩

/-- C8: loading the same valid document twice in succession yields
registries equal (as Python dict equality, key by key) to loading it
once, and the second load also succeeds. -/
theorem c8_load_idempotent (st : RuntimeState) (doc : Document)
    (h : ∃ d, (load_file st (.ok doc)).2 = .ok d) :
    (∃ d, (load_file (load_file st (.ok doc)).1 (.ok doc)).2 = .ok d) ∧
    (∀ k, dictGet k (load_file (load_file st (.ok doc)).1 (.ok doc)).1.workers =
          dictGet k (load_file st (.ok doc)).1.workers) ∧
    (∀ k, dictGet k (load_file (load_file st (.ok doc)).1 (.ok doc)).1.agents =
          dictGet k (load_file st (.ok doc)).1.agents) ∧
    (∀ k, dictGet k (load_file (load_file st (.ok doc)).1 (.ok doc)).1.tasks =
          dictGet k (load_file st (.ok doc)).1.tasks) := by
  cases doc with
  | workerDoc w =>
    refine ⟨⟨.workerDoc w, rfl⟩, ?_, ?_, ?_⟩ <;> intro k <;>
      simp [load_file, validate_document, dictInsert_idem]
  | taskDoc ts =>
    refine ⟨⟨.taskDoc ts, rfl⟩, ?_, ?_, ?_⟩ <;> intro k
    · simp [load_file, validate_document]
    · simp [load_file, validate_document]
    · simp only [load_file, validate_document]
      rw [dictGet_foldInsert, dictGet_foldInsert]
      cases lastNamed k ts <;> simp
  | agentDoc a =>
    rcases h with ⟨d, hd⟩
    cases hval : validate_agent_uses st.workers a.uses with
    | error e => simp [load_file, validate_document, validate_agent, hval] at hd
    | ok u =>
      cases u
      refine ⟨⟨.agentDoc a, ?_⟩, ?_, ?_, ?_⟩ <;>
        simp [load_file, validate_document, validate_agent, hval, dictInsert_idem]

/-- Witness for C8: loading the worker document for A twice leaves the
workers registry at key A as after one load. -/
theorem c8_load_idempotent_witness :
    dictGet "A"
        (load_file (load_file stEmpty (.ok (.workerDoc wA))).1 (.ok (.workerDoc wA))).1.workers =
      dictGet "A" (load_file stEmpty (.ok (.workerDoc wA))).1.workers :=
  (c8_load_idempotent stEmpty (.workerDoc wA) ⟨.workerDoc wA, rfl⟩).2.1 "A"

/-- C1: whenever `resolve_under_root` returns a path, that (absolute)
path is a descendant of the resolved sandbox root, and a resolution
landing outside the root raises SandboxError; concretely, "../x" and the
outside absolute path /etc/passwd raise SandboxError, "workspace/x"
succeeds with the root as an ancestor, and a path whose symlink target
lies outside the root raises SandboxError. -/
theorem c1_resolve_under_root_containment :
    (∀ (fs : FileSystem) (fuel : Nat) (sb : Sandbox) (v : PathValue) (p rr : PathComps),
      resolveLoop fs fuel [] sb.root = some rr →
      resolve_under_root fs fuel sb v = .ok p →
      rr.isPrefixOf p = true) ∧
    (∀ (fs : FileSystem) (fuel : Nat) (sb : Sandbox) (v : PathValue) (r rr : PathComps),
      resolveLoop fs fuel [] (if v.absolute then v.comps else sb.root ++ v.comps) = some r →
      resolveLoop fs fuel [] sb.root = some rr →
      rr.isPrefixOf r = false →
      resolve_under_root fs fuel sb v = .error .sandboxError) ∧
    resolve_under_root fsEmpty 32 sbEx ⟨false, ["..", "x"]⟩ = .error .sandboxError ∧
    resolve_under_root fsEmpty 32 sbEx ⟨true, ["etc", "passwd"]⟩ = .error .sandboxError ∧
    resolve_under_root fsEmpty 32 sbEx ⟨false, ["workspace", "x"]⟩ =
      .ok ["home", "psyker_sandbox", "workspace", "x"] ∧
    (["home", "psyker_sandbox"] : PathComps).isPrefixOf
      ["home", "psyker_sandbox", "workspace", "x"] = true ∧
    resolve_under_root fsLink 32 sbEx ⟨false, ["workspace", "evil", "secret"]⟩ =
      .error .sandboxError := by
  refine ⟨?_, ?_, by decide, by decide, by decide, by decide, by decide⟩
  · intro fs fuel sb v p rr hroot hok
    simp only [resolve_under_root] at hok
    cases hbase : resolveLoop fs fuel [] (if v.absolute then v.comps else sb.root ++ v.comps) with
    | none => rw [hbase] at hok; simp at hok
    | some resolved =>
      rw [hbase] at hok
      have hok' : (match assert_inside_root fs fuel sb resolved with
          | some e => (Except.error e : Except PErr PathComps)
          | none => Except.ok resolved) = Except.ok p := hok
      cases hass : assert_inside_root fs fuel sb resolved with
      | some e => rw [hass] at hok'; simp at hok'
      | none =>
        rw [hass] at hok'
        simp at hok'
        subst hok'
        simp only [assert_inside_root, hroot] at hass
        by_cases hpre : rr <+: resolved
        · exact List.isPrefixOf_iff_prefix.mpr hpre
        · simp [hpre] at hass
  · intro fs fuel sb v r rr hbase hroot hpre
    simp only [resolve_under_root]
    rw [hbase]
    simp [assert_inside_root, hroot, hpre]

/-- Witness for C1: the concrete root resolves to itself and the general
containment conjunct applies to the successful "workspace/x" case. -/
theorem c1_resolve_under_root_containment_witness :
    resolveLoop fsEmpty 32 [] sbEx.root = some ["home", "psyker_sandbox"] ∧
    (["home", "psyker_sandbox"] : PathComps).isPrefixOf
      ["home", "psyker_sandbox", "workspace", "x"] = true :=
  ⟨by decide,
   c1_resolve_under_root_containment.1 fsEmpty 32 sbEx ⟨false, ["workspace", "x"]⟩
     ["home", "psyker_sandbox", "workspace", "x"] ["home", "psyker_sandbox"]
     (by decide) (by decide)⟩

/-- Helper for C9: skipping comments leaves the cursor alone when the
current token is not a comment. -/
theorem skipComments_eq_self (fuel : Nat) (s : PState) (h : (curTok s).kind ≠ "COMMENT") :
    skipComments fuel s = s := by
  cases fuel with
  | zero => rfl
  | succ f => simp [skipComments, h]

/-- Counterexample to C9 as stated: `count` belongs to the agent
dialect's exclusive vocabulary (`_AGENT_ONLY`), yet peeking it at the
top of a task (.psy) token stream raises generic SyntaxError, not
DialectError — the top-of-file checkpoint only rejects worker/agent. -/
theorem c9_cross_dialect_counterexample :
    agentOnly.contains "count" = true ∧
    parse_task_file 9 ⟨[⟨"KEYWORD", "count", 1, 1⟩, ⟨"EOF", "", 1, 6⟩], 0, none⟩ =
      .error .syntaxError ∧
    PErr.syntaxError ≠ PErr.dialectError := by
  decide

/-- C9 (amended): each dialect's parser raises DialectError when the
token peeked at one of its cross-dialect checkpoints carries a value in
that checkpoint's forbidden set — at the top of a file: worker/agent for
.psy, task/agent/@access for .psyw, task/worker/@access plus the four
ops for .psya (similar per-body sets apply inside definitions); foreign
keywords outside the checkpoint's set surface as SyntaxError instead. -/
theorem c9_cross_dialect_amended :
    (∀ (fuel : Nat) (tok : Token) (rest : List Token) (path : Option String),
      tok.kind ≠ "COMMENT" → tok.kind ≠ "EOF" →
      (["worker", "agent"] : List String).contains tok.value = true →
      parse_task_file (fuel + 1) ⟨tok :: rest, 0, path⟩ = .error .dialectError) ∧
    (∀ (fuel : Nat) (tok : Token) (rest : List Token) (path : Option String),
      tok.kind ≠ "COMMENT" →
      (["task", "agent", "@access"] : List String).contains tok.value = true →
      parse_worker_file fuel ⟨tok :: rest, 0, path⟩ = .error .dialectError) ∧
    (∀ (fuel : Nat) (tok : Token) (rest : List Token) (path : Option String),
      tok.kind ≠ "COMMENT" →
      ((["task", "worker", "@access"] ++ taskOps) : List String).contains tok.value = true →
      parse_agent_file fuel ⟨tok :: rest, 0, path⟩ = .error .dialectError) := by
  refine ⟨?_, ?_, ?_⟩
  · intro fuel tok rest path h1 h2 h3
    have hcur : curTok ⟨tok :: rest, 0, path⟩ = tok := rfl
    have hsk : ∀ f, skipComments f ⟨tok :: rest, 0, path⟩ = ⟨tok :: rest, 0, path⟩ :=
      fun f => skipComments_eq_self f _ (hcur ▸ h1)
    simp at h3
    simp [parse_task_file, parse_task_file_loop, pAtEnd, pPeek, pMatch, pReject, hsk, hcur,
      h1, h2, h3, Bind.bind, Except.bind]
  · intro fuel tok rest path h1 h3
    have hcur : curTok ⟨tok :: rest, 0, path⟩ = tok := rfl
    have hsk : ∀ f, skipComments f ⟨tok :: rest, 0, path⟩ = ⟨tok :: rest, 0, path⟩ :=
      fun f => skipComments_eq_self f _ (hcur ▸ h1)
    simp at h3
    simp [parse_worker_file, pPeek, pReject, hsk, hcur, h3, Bind.bind, Except.bind]
  · intro fuel tok rest path h1 h3
    have hcur : curTok ⟨tok :: rest, 0, path⟩ = tok := rfl
    have hsk : ∀ f, skipComments f ⟨tok :: rest, 0, path⟩ = ⟨tok :: rest, 0, path⟩ :=
      fun f => skipComments_eq_self f _ (hcur ▸ h1)
    simp at h3
    simp [parse_agent_file, pPeek, pReject, hsk, hcur, h3, Bind.bind, Except.bind]

/-- Witness for the amended C9: the keyword `worker` at the top of a
task (.psy) token stream is rejected with DialectError. -/
theorem c9_cross_dialect_amended_witness :
    parse_task_file 9 ⟨[⟨"KEYWORD", "worker", 1, 1⟩, ⟨"EOF", "", 1, 7⟩], 0, none⟩ =
      .error .dialectError :=
  c9_cross_dialect_amended.1 8 ⟨"KEYWORD", "worker", 1, 1⟩ [⟨"EOF", "", 1, 7⟩] none
    (by decide) (by decide) (by decide)

end Psyker
